import Mathlib

/-!
Verification of the FleetOptima CSV transport parser and driver aggregation
(`src/utils/csvParser.ts` and the `driverStats` computation of `src/App.tsx`).

JavaScript numbers are modelled as `ℚ`, with `Option ℚ` where `NaN` can
occur (`none` models `NaN`); `Math.round` is the round-half-up `round` of
`ℚ`.  The IEEE-754 infinities are outside this rational model; no input
exercised below produces them.  Strings are Lean `String`s, operated on
through their character lists so that every function is a structurally
recursive, executable definition.
-/

/-- The characters treated as whitespace by JavaScript string trimming and
numeric conversion (the common ASCII set). -/
def jsIsWS (c : Char) : Bool :=
  c == ' ' || c == '\t' || c == '\n' || c == '\r' || c == '\x0b' || c == '\x0c'

/-- Strip leading and trailing whitespace characters from a character list. -/
def trimChars (l : List Char) : List Char :=
  ((l.dropWhile jsIsWS).reverse.dropWhile jsIsWS).reverse

/-- Model of `String.prototype.trim` (used as `c.trim()` on every column). -/
def jsTrim (s : String) : String := String.mk (trimChars s.toList)

/-- Split a character list at every occurrence of the separator, keeping empty
pieces: `String.prototype.split` with a single-character separator, so that
splitting the empty list yields one empty piece. -/
def splitOnChar (sep : Char) : List Char → List (List Char)
  | [] => [[]]
  | c :: rest =>
    let r := splitOnChar sep rest
    if c == sep then [] :: r
    else
      match r with
      | [] => [[c]]
      | h :: t => (c :: h) :: t

/-- Model of `s.split(sep)` for a one-character separator. -/
def jsSplit (sep : Char) (s : String) : List String :=
  (splitOnChar sep s.toList).map String.mk

/-- Numeric value of a list of decimal digit characters, most significant
digit first. -/
def digitsToNat (ds : List Char) : Nat :=
  ds.foldl (fun a c => a * 10 + (c.toNat - 48)) 0

/-- Hexadecimal digit test for the `0x` literal forms. -/
def isHexDigitChar (c : Char) : Bool :=
  c.isDigit || ('a' ≤ c && c ≤ 'f') || ('A' ≤ c && c ≤ 'F')

/-- Value of one hexadecimal digit character. -/
def hexDigitVal (c : Char) : Nat :=
  if c.isDigit then c.toNat - 48
  else if 'a' ≤ c && c ≤ 'f' then c.toNat - 87
  else c.toNat - 55

/-- Numeric value of a list of hexadecimal digit characters. -/
def hexToNat (ds : List Char) : Nat :=
  ds.foldl (fun a c => a * 16 + hexDigitVal c) 0

/-- Parse a decimal numeric literal prefix of the character list:
`digits [. digits] [exponent]` or `. digits [exponent]`, the decimal grammar
shared by JavaScript `Number` and `parseFloat`.  Returns the value and the
unconsumed suffix; `none` when no digit occurs in the integer or fraction
part.  An exponent is consumed only when `e`/`E` is followed by an optional
sign and at least one digit, matching the longest-valid-prefix rule. -/
def decLitVal (l : List Char) : Option (ℚ × List Char) :=
  let ip := l.takeWhile Char.isDigit
  let r1 := l.dropWhile Char.isDigit
  let fp :=
    match r1 with
    | '.' :: r => r.takeWhile Char.isDigit
    | _ => []
  let r2 :=
    match r1 with
    | '.' :: r => r.dropWhile Char.isDigit
    | _ => r1
  if ip.isEmpty && fp.isEmpty then none
  else
    let mant : ℚ := (digitsToNat ip : ℚ) + (digitsToNat fp : ℚ) / (10 : ℚ) ^ fp.length
    let ev : ℤ × List Char :=
      match r2 with
      | c :: s :: rest =>
        if c == 'e' || c == 'E' then
          if s == '+' then
            (if (rest.takeWhile Char.isDigit).isEmpty then (0, r2)
             else ((digitsToNat (rest.takeWhile Char.isDigit) : ℤ), rest.dropWhile Char.isDigit))
          else if s == '-' then
            (if (rest.takeWhile Char.isDigit).isEmpty then (0, r2)
             else (-(digitsToNat (rest.takeWhile Char.isDigit) : ℤ), rest.dropWhile Char.isDigit))
          else
            (if ((s :: rest).takeWhile Char.isDigit).isEmpty then (0, r2)
             else ((digitsToNat ((s :: rest).takeWhile Char.isDigit) : ℤ),
                   (s :: rest).dropWhile Char.isDigit))
        else (0, r2)
      | _ => (0, r2)
    some (mant * (10 : ℚ) ^ ev.1, ev.2)

/-- Model of JavaScript `parseFloat`: skip leading whitespace, optional sign,
then the longest decimal-literal prefix; `none` models `NaN`.  (The
`Infinity` prefix accepted by `parseFloat` denotes an infinite value outside
this rational model.) -/
def jsParseFloat (s : String) : Option ℚ :=
  let l := s.toList.dropWhile jsIsWS
  match l with
  | '-' :: r => (decLitVal r).map (fun p => -p.1)
  | '+' :: r => (decLitVal r).map (fun p => p.1)
  | _ => (decLitVal l).map (fun p => p.1)

/-- Unsigned part of `parseInt` with no radix argument: a `0x`/`0X`
hexadecimal literal, or the longest prefix of decimal digits. -/
def jsParseIntCore (l : List Char) : Option ℤ :=
  match l with
  | '0' :: x :: r =>
    if x == 'x' || x == 'X' then
      (if (r.takeWhile isHexDigitChar).isEmpty then none
       else some (hexToNat (r.takeWhile isHexDigitChar) : ℤ))
    else some (digitsToNat (l.takeWhile Char.isDigit) : ℤ)
  | _ =>
    if (l.takeWhile Char.isDigit).isEmpty then none
    else some (digitsToNat (l.takeWhile Char.isDigit) : ℤ)

/-- Model of JavaScript `parseInt` with no radix argument: skip leading
whitespace, optional sign, then the unsigned part; `none` models `NaN`. -/
def jsParseInt (s : String) : Option ℤ :=
  let l := s.toList.dropWhile jsIsWS
  match l with
  | '-' :: r => (jsParseIntCore r).map (fun z => -z)
  | '+' :: r => jsParseIntCore r
  | _ => jsParseIntCore l

/-- Value of the radix-prefixed (`0x`, `0o`, `0b`) whole-string numeric
literals accepted by `Number`; these take no sign. -/
def radixVal (l : List Char) : Option ℚ :=
  match l with
  | '0' :: x :: r =>
    if x == 'x' || x == 'X' then
      (if !r.isEmpty && r.all isHexDigitChar then some (hexToNat r : ℚ) else none)
    else if x == 'o' || x == 'O' then
      (if !r.isEmpty && r.all (fun c => '0' ≤ c && c ≤ '7') then
        some ((r.foldl (fun a c => a * 8 + (c.toNat - 48)) 0 : ℕ) : ℚ)
       else none)
    else if x == 'b' || x == 'B' then
      (if !r.isEmpty && r.all (fun c => c == '0' || c == '1') then
        some ((r.foldl (fun a c => a * 2 + (c.toNat - 48)) 0 : ℕ) : ℚ)
       else none)
    else none
  | _ => none

/-- Model of JavaScript `Number(string)` conversion: the whole trimmed string
must be a numeric literal (decimal, radix-prefixed, or signed `Infinity`);
`none` models `NaN`.  The infinite values of the `Infinity` forms are outside
this rational model and also map to `none`; the parser's row classifier uses
`jsNumberNotNaN` below, which keeps the `Infinity` forms as numbers. -/
def jsNumber (s : String) : Option ℚ :=
  let l := trimChars s.toList
  match l with
  | [] => some 0
  | _ =>
    match radixVal l with
    | some v => some v
    | none =>
      match l with
      | '-' :: r =>
        if r == "Infinity".toList then none
        else match decLitVal r with
          | some (v, []) => some (-v)
          | _ => none
      | '+' :: r =>
        if r == "Infinity".toList then none
        else match decLitVal r with
          | some (v, []) => some v
          | _ => none
      | _ =>
        if l == "Infinity".toList then none
        else match decLitVal l with
          | some (v, []) => some v
          | _ => none

/-- The test `!isNaN(Number(s))` used to classify data rows: the empty
(trimmed) string converts to `0`, and the signed `Infinity` forms are
numbers, not `NaN`. -/
def jsNumberNotNaN (s : String) : Bool :=
  let l := trimChars s.toList
  match l with
  | [] => true
  | _ =>
    (radixVal l).isSome ||
    (let u := match l with
      | '-' :: r => r
      | '+' :: r => r
      | _ => l
     u == "Infinity".toList ||
       (match decLitVal u with | some (_, []) => true | _ => false))

/-- JavaScript `v || 0` applied to a possibly-`NaN` number: `NaN` (here
`none`) and `0` both give `0`, any other value passes through. -/
def jsOrZeroQ (x : Option ℚ) : ℚ := x.getD 0

/-- JavaScript `v || 0` for a possibly-`NaN` integer result of `parseInt`. -/
def jsOrZeroInt (x : Option ℤ) : ℤ := x.getD 0

/-- JavaScript `s || d` for strings: the empty string (or an absent column,
modelled as the empty string) falls back to the default. -/
def jsOrElse (s d : String) : String := if s == "" then d else s

/-- Structure `StoreStop` from `src/types.ts`: one delivery stop within a load. -/
structure StoreStop where
  stopNo : ℤ
  storeNo : String
  storeName : String
  distance : ℚ
  returnLeg : ℚ
  windowStart : String
  windowEnd : String
deriving DecidableEq

/-- Structure `Load` from `src/types.ts`: one dispatched run. -/
structure Load where
  loadNo : String
  routeNo : String
  driver : String
  truck : String
  trailer : String
  despatchTime : String
  date : String
  stops : List StoreStop
  totalPallets : ℤ
  totalDistance : ℚ
  totalReturnLeg : ℚ
  expectedTimeMinutes : ℤ
deriving DecidableEq

/-- The in-progress load of the parser (`Partial<Load>` in the source): all
fields built so far, with `expectedTimeMinutes` still missing — it is only
computed at finalization. -/
structure CurLoad where
  loadNo : String
  routeNo : String
  driver : String
  truck : String
  trailer : String
  despatchTime : String
  date : String
  stops : List StoreStop
  totalPallets : ℤ
  totalDistance : ℚ
  totalReturnLeg : ℚ
deriving DecidableEq

/-- Function `calculateExpectedTime` from `src/utils/csvParser.ts`: expected minutes
for a load, at 1 minute of travel per km plus 30 minutes of unloading per
stop; `Math.round` rounds half away from zero upward, the `round` of `ℚ`. -/
def calculateExpectedTime (totalKms : ℚ) (stopCount : ℚ) : ℤ :=
  let travelTimeMinutes := totalKms
  let unloadingTimeMinutes := stopCount * 30
  round (travelTimeMinutes + unloadingTimeMinutes)

/-- First column of a split row, the load id (`cols[0]`; a split always
yields at least one piece, so the JavaScript access is never undefined). -/
def rowId (cols : List String) : String := cols.getD 0 ""

/-- Row classifier of the parser: `loadId && !isNaN(Number(loadId))`. -/
def isDataRow (cols : List String) : Bool :=
  rowId cols != "" && jsNumberNotNaN (rowId cols)

/-- The `StoreStop` built from one data row.  A column missing from a short
row is `undefined` in JavaScript and is modelled as the empty string; every
numeric use goes through `parseInt`/`parseFloat`, where both read as `NaN`
and default to 0 through `|| 0`. -/
def mkStop (cols : List String) : StoreStop :=
  { stopNo := jsOrZeroInt (jsParseInt (cols.getD 2 ""))
    storeNo := cols.getD 3 ""
    storeName := cols.getD 4 ""
    distance := jsOrZeroQ (jsParseFloat (cols.getD 11 ""))
    returnLeg := jsOrZeroQ (jsParseFloat (cols.getD 12 ""))
    windowStart := cols.getD 7 ""
    windowEnd := cols.getD 8 "" }

/-- The fresh accumulating load seeded from a row whose load id differs from
the current one (or when none is accumulating): scalar fields from this row,
this row's stop as the sole stop, its distance and return leg as the running
totals. -/
def newCur (cols : List String) : CurLoad :=
  { loadNo := rowId cols
    routeNo := cols.getD 1 ""
    driver := jsOrElse (cols.getD 13 "") "UNKNOWN"
    truck := cols.getD 14 ""
    trailer := cols.getD 15 ""
    despatchTime := cols.getD 16 ""
    date := cols.getD 6 ""
    stops := [mkStop cols]
    totalPallets := jsOrZeroInt (jsParseInt (cols.getD 10 ""))
    totalDistance := (mkStop cols).distance
    totalReturnLeg := (mkStop cols).returnLeg }

/-- Accumulation of one more row with the same load id: append the stop, add
the pallets and distance, and overwrite the return leg with this row's value
(the comment in the source: keep the latest return leg as the final leg). -/
def addRow (c : CurLoad) (cols : List String) : CurLoad :=
  { c with
    stops := c.stops ++ [mkStop cols]
    totalPallets := c.totalPallets + jsOrZeroInt (jsParseInt (cols.getD 10 ""))
    totalDistance := c.totalDistance + (mkStop cols).distance
    totalReturnLeg := (mkStop cols).returnLeg }

/-- Finalization of an accumulated load: `expectedTimeMinutes` is computed
from the accumulated distance plus the final return leg and the stop count. -/
def finalizeLoad (c : CurLoad) : Load :=
  let totalDistance := c.totalDistance + c.totalReturnLeg
  { loadNo := c.loadNo
    routeNo := c.routeNo
    driver := c.driver
    truck := c.truck
    trailer := c.trailer
    despatchTime := c.despatchTime
    date := c.date
    stops := c.stops
    totalPallets := c.totalPallets
    totalDistance := c.totalDistance
    totalReturnLeg := c.totalReturnLeg
    expectedTimeMinutes := calculateExpectedTime totalDistance (c.stops.length : ℚ) }

/-- The `if (currentLoad && currentLoad.loadNo)` push of the source, used
both at a load-id boundary and after the last line. -/
def pushCurrent (cur : Option CurLoad) (loads : List Load) : List Load :=
  match cur with
  | some c => if c.loadNo == "" then loads else loads ++ [finalizeLoad c]
  | none => loads

/-- One iteration of the `lines.forEach` body of `parseTransportCsv`, acting
on the already split-and-trimmed columns of the line: non-data rows are
skipped; a row with the accumulating load's id is added to it; any other data
row finalizes the accumulating load (if any) and starts a new one. -/
def rowStep (acc : Option CurLoad × List Load) (cols : List String) :
    Option CurLoad × List Load :=
  if isDataRow cols then
    match acc.1 with
    | some c =>
      if c.loadNo == rowId cols then (some (addRow c cols), acc.2)
      else (some (newCur cols), pushCurrent acc.1 acc.2)
    | none => (some (newCur cols), acc.2)
  else acc

/-- The first statement of the `forEach` body: split the line on commas and
trim every column, `line.split(',').map(c => c.trim())`. -/
def parseLine (line : String) : List String := (jsSplit ',' line).map jsTrim

/-- Function `parseTransportCsv` from `src/utils/csvParser.ts`: split the text into
lines, split each line into trimmed columns, fold the row step over the lines
starting with no accumulating load, and push the final load. -/
def parseTransportCsv (csvText : String) : List Load :=
  let s := ((jsSplit '\n' csvText).map parseLine).foldl rowStep (none, [])
  pushCurrent s.1 s.2

/-- Function `calculateMinutesBetween` from `src/utils/csvParser.ts`: 0 when either
string is empty; otherwise each string is split on `:`, each piece converted
by `Number`, and the result is the absolute difference of `h*60 + (m || 0)`.
A `NaN` hour makes the whole result `NaN` (`none`); a missing or `NaN`
minute is replaced by 0 by `|| 0`. -/
def calculateMinutesBetween (time1 time2 : String) : Option ℚ :=
  if time1 == "" || time2 == "" then some 0
  else
    match ((jsSplit ':' time1).map jsNumber).getD 0 none,
          ((jsSplit ':' time2).map jsNumber).getD 0 none with
    | some h1, some h2 =>
      some |(h2 * 60 + jsOrZeroQ (((jsSplit ':' time2).map jsNumber).getD 1 none)) -
            (h1 * 60 + jsOrZeroQ (((jsSplit ':' time1).map jsNumber).getD 1 none))|
    | _, _ => none

/-- The split-and-trimmed data rows of an input text: the rows of the text,
in order, that the parser classifies as data rows. -/
def dataRows (csvText : String) : List (List String) :=
  ((jsSplit '\n' csvText).map parseLine).filter isDataRow

/-- Reference chunking used to state the grouping contract: the maximal runs
of adjacent rows sharing the first row's load id, each run given as its first
row together with the remaining rows of the run. -/
def chunkRows : List (List String) → List (List String × List (List String))
  | [] => []
  | r :: rs =>
    (r, rs.takeWhile (fun x => rowId x == rowId r)) ::
      chunkRows (rs.dropWhile (fun x => rowId x == rowId r))
termination_by l => l.length
decreasing_by
  simp only [List.length_cons]
  exact Nat.lt_succ_of_le (List.Sublist.length_le (List.dropWhile_sublist _))

/-- The load built from one chunk of rows: the first row seeds the load and
the remaining rows of the run are accumulated, then the load is finalized. -/
def buildChunk (p : List String × List (List String)) : Load :=
  finalizeLoad (p.2.foldl addRow (newCur p.1))

/-- The `DriverChartData` of `src/App.tsx` (its `DriverStats` of
`src/types.ts` plus `avgExpectedTime`).  `avgTimeBetweenLoadsMinutes` is an
`Option` because a `NaN` dispatch gap propagates into it. -/
structure DriverChartData where
  driverName : String
  loads : List Load
  totalKms : ℚ
  totalPallets : ℤ
  avgTimeBetweenLoadsMinutes : Option ℤ
  avgExpectedTime : ℚ
deriving DecidableEq

/-- The fresh per-driver record created on first sight of a driver. -/
def emptyStats (driver : String) : DriverChartData :=
  { driverName := driver
    loads := []
    totalKms := 0
    totalPallets := 0
    avgTimeBetweenLoadsMinutes := some 0
    avgExpectedTime := 0 }

/-- The per-load accumulation into a driver's record: push the load and add
its `totalDistance + totalReturnLeg` and its pallets. -/
def pushLoadStats (s : DriverChartData) (load : Load) : DriverChartData :=
  { s with
    loads := s.loads ++ [load]
    totalKms := s.totalKms + (load.totalDistance + load.totalReturnLeg)
    totalPallets := s.totalPallets + load.totalPallets }

/-- One iteration of the grouping loop of `driverStats`: `statsMap` is a
string-keyed record with insertion-ordered keys, modelled as an association
list; a missing key is first created with the empty record, then the matching
entry is updated. -/
def addLoadToMap (m : List (String × DriverChartData)) (load : Load) :
    List (String × DriverChartData) :=
  let m1 := if m.any (fun p => p.1 == load.driver) then m
            else m ++ [(load.driver, emptyStats load.driver)]
  m1.map (fun p => if p.1 == load.driver then (p.1, pushLoadStats p.2 load) else p)

/-- The sort key of the dispatch-time comparator in `driverStats`:
`t[0]*60 + (t[1] || 0)` for `t = despatchTime.split(':').map(Number)`;
`none` when the hour piece is `NaN`. -/
def despKey (l : Load) : Option ℚ :=
  let parts := (jsSplit ':' l.despatchTime).map jsNumber
  match parts.getD 0 none with
  | some h => some (h * 60 + jsOrZeroQ (parts.getD 1 none))
  | none => none

/-- Boolean form of `comparator(a, b) <= 0` for the dispatch-time sort.  A
comparator value of `NaN` is treated as 0 by the ECMAScript sort, hence
`true` whenever either key is `NaN`. -/
def despLEb (a b : Load) : Bool :=
  match despKey a, despKey b with
  | some x, some y => decide (x ≤ y)
  | _, _ => true

/-- The dispatch-time sort relation as a proposition. -/
def despLE (a b : Load) : Prop := despLEb a b = true

instance : DecidableRel despLE := fun a b => instDecidableEqBool (despLEb a b) true

/-- The descending-kilometres relation of the final `driverStats` sort,
`comparator(a, b) = b.totalKms - a.totalKms <= 0`. -/
def kmsGE (a b : DriverChartData) : Prop := b.totalKms ≤ a.totalKms

instance : DecidableRel kmsGE := fun a b => inferInstanceAs (Decidable (b.totalKms ≤ a.totalKms))

instance : IsTotal DriverChartData kmsGE := ⟨fun a b => le_total b.totalKms a.totalKms⟩

instance : IsTrans DriverChartData kmsGE := ⟨fun _ _ _ h1 h2 => le_trans h2 h1⟩

/-- A throwaway load used only as the out-of-range default of list indexing;
the gap loop below never indexes out of range. -/
def dummyLoad : Load :=
  { loadNo := ""
    routeNo := ""
    driver := ""
    truck := ""
    trailer := ""
    despatchTime := ""
    date := ""
    stops := []
    totalPallets := 0
    totalDistance := 0
    totalReturnLeg := 0
    expectedTimeMinutes := 0 }

/-- JavaScript addition with `NaN` propagation. -/
def jsAdd (a b : Option ℚ) : Option ℚ :=
  match a, b with
  | some x, some y => some (x + y)
  | _, _ => none

/-- The per-driver finalization loop of `driverStats`: sort the driver's
loads ascending by dispatch-time minute of day (`Array.prototype.sort` with a
comparator is a stable sort, modelled by the stable insertion sort over
`comparator <= 0`), accumulate the gaps between adjacent loads by index,
compute the average gap and the average expected duration. -/
def finalizeStats (s : DriverChartData) : DriverChartData :=
  let sorted := List.insertionSort despLE s.loads
  let gapCount := sorted.length - 1
  let totalGap := (List.range (sorted.length - 1)).foldl
    (fun acc i => jsAdd acc (calculateMinutesBetween
      (sorted.getD i dummyLoad).despatchTime (sorted.getD (i + 1) dummyLoad).despatchTime))
    (some 0)
  let totalExpected := sorted.foldl (fun acc l => acc + l.expectedTimeMinutes) (0 : ℤ)
  { s with
    loads := sorted
    avgTimeBetweenLoadsMinutes :=
      if 0 < gapCount then totalGap.map (fun g => round (g / (gapCount : ℚ))) else some 0
    avgExpectedTime :=
      if 0 < sorted.length then (totalExpected : ℚ) / (sorted.length : ℚ) else 0 }

/-- The `driverStats` memo of `src/App.tsx`: group the loads by driver in
first-appearance order, finalize each driver's record, and sort the records
descending by `totalKms` (again a stable comparator sort). -/
def driverStats (loads : List Load) : List DriverChartData :=
  let statsMap := loads.foldl addLoadToMap []
  List.insertionSort kmsGE (statsMap.map (fun p => finalizeStats p.2))


/-! ### Shared lemmas about the parser fold -/

theorem addRow_loadNo (c : CurLoad) (cols : List String) :
    (addRow c cols).loadNo = c.loadNo := rfl

theorem foldl_addRow_loadNo (run : List (List String)) (c : CurLoad) :
    (run.foldl addRow c).loadNo = c.loadNo := by
  induction run generalizing c with
  | nil => rfl
  | cons x xs ih =>
    rw [List.foldl_cons, ih]
    rfl

theorem foldl_addRow_stops (run : List (List String)) (c : CurLoad) :
    (run.foldl addRow c).stops = c.stops ++ run.map mkStop := by
  induction run generalizing c with
  | nil => simp
  | cons x xs ih =>
    rw [List.foldl_cons, ih]
    simp [addRow]

theorem foldl_addRow_returnLeg (run : List (List String)) (c : CurLoad) (x : List String)
    (hx : run.getLast? = some x) :
    (run.foldl addRow c).totalReturnLeg = (mkStop x).returnLeg := by
  induction run generalizing c with
  | nil => simp at hx
  | cons y ys ih =>
    rw [List.foldl_cons]
    cases ys with
    | nil =>
      simp only [List.getLast?_singleton, Option.some_inj] at hx
      subst hx
      simp [addRow]
    | cons z zs =>
      rw [List.getLast?_cons_cons] at hx
      exact ih (addRow c y) hx

theorem isDataRow_ne_empty {cols : List String} (h : isDataRow cols = true) :
    rowId cols ≠ "" := by
  have h2 := h
  simp only [isDataRow, Bool.and_eq_true, bne_iff_ne, ne_eq] at h2
  exact h2.1

theorem rowStep_data_some (c : CurLoad) (loads : List Load) (cols : List String)
    (hd : isDataRow cols = true) (hid : c.loadNo = rowId cols) :
    rowStep (some c, loads) cols = (some (addRow c cols), loads) := by
  simp [rowStep, hd, hid]

theorem foldl_rowStep_run (run : List (List String)) (c : CurLoad) (loads : List Load)
    (h : ∀ x ∈ run, isDataRow x = true ∧ rowId x = c.loadNo) :
    run.foldl rowStep (some c, loads) = (some (run.foldl addRow c), loads) := by
  induction run generalizing c with
  | nil => rfl
  | cons x xs ih =>
    have hx := h x (List.mem_cons_self x xs)
    rw [List.foldl_cons, rowStep_data_some c loads x hx.1 hx.2.symm, List.foldl_cons]
    exact ih (addRow c x) (fun y hy =>
      ⟨(h y (List.mem_cons_of_mem x hy)).1, by
        rw [(h y (List.mem_cons_of_mem x hy)).2, addRow_loadNo]⟩)

theorem dropWhile_head_not {α : Type} (p : α → Bool) :
    ∀ (l : List α) {x : α} {xs : List α}, l.dropWhile p = x :: xs → p x = false := by
  intro l
  induction l with
  | nil => intro x xs h; simp at h
  | cons a t ih =>
    intro x xs h
    rw [List.dropWhile_cons] at h
    by_cases ha : p a
    · rw [if_pos ha] at h
      exact ih h
    · rw [if_neg ha] at h
      cases h
      simpa using ha

theorem foldl_rowStep_chunks : ∀ (rows : List (List String)),
    (∀ r ∈ rows, isDataRow r = true) → ∀ (acc : List Load),
    pushCurrent (rows.foldl rowStep (none, acc)).1 (rows.foldl rowStep (none, acc)).2
      = acc ++ (chunkRows rows).map buildChunk
  | [], _, acc => by simp [pushCurrent, chunkRows]
  | r :: rs, h, acc => by
    have hr : isDataRow r = true := h r (List.mem_cons_self r rs)
    have hid : rowId r ≠ "" := isDataRow_ne_empty hr
    have h1 : rowStep (none, acc) r = (some (newCur r), acc) := by simp [rowStep, hr]
    have hsplit : rs.takeWhile (fun x => rowId x == rowId r) ++
        rs.dropWhile (fun x => rowId x == rowId r) = rs :=
      List.takeWhile_append_dropWhile ..
    have hrun : ∀ x ∈ rs.takeWhile (fun x => rowId x == rowId r),
        isDataRow x = true ∧ rowId x = (newCur r).loadNo := by
      intro x hx
      refine ⟨h x (List.mem_cons_of_mem r ((List.takeWhile_sublist _).mem hx)), ?_⟩
      have hb := List.mem_takeWhile_imp hx
      simpa [newCur, rowId] using hb
    have habs := foldl_rowStep_run (rs.takeWhile (fun x => rowId x == rowId r))
      (newCur r) acc hrun
    set C := (rs.takeWhile (fun x => rowId x == rowId r)).foldl addRow (newCur r) with hCdef
    have hCload : C.loadNo = rowId r := by
      rw [hCdef, foldl_addRow_loadNo]
      rfl
    have hCne : (C.loadNo == "") = false := by
      rw [hCload]
      exact beq_eq_false_iff_ne.mpr hid
    have hpush : pushCurrent (some C) acc = acc ++ [finalizeLoad C] := by
      simp [pushCurrent, hCne]
    have hbuild : buildChunk (r, rs.takeWhile (fun x => rowId x == rowId r)) = finalizeLoad C := by
      rw [hCdef]
      rfl
    have hF : List.foldl rowStep (none, acc) (r :: rs)
        = List.foldl rowStep (some C, acc) (rs.dropWhile (fun x => rowId x == rowId r)) := by
      rw [List.foldl_cons, h1]
      conv_lhs => rw [← hsplit]
      rw [List.foldl_append, habs]
    rw [hF, chunkRows]
    cases hdrop : rs.dropWhile (fun x => rowId x == rowId r) with
    | nil =>
      simp only [List.foldl_nil, List.map_cons]
      rw [hpush, hbuild]
      simp [chunkRows]
    | cons x xs =>
      have hxmem : x ∈ rs := (List.dropWhile_sublist _).mem
        (by rw [hdrop]; exact List.mem_cons_self x xs)
      have hxd : isDataRow x = true := h x (List.mem_cons_of_mem r hxmem)
      have hxne : rowId x ≠ rowId r := by
        have hb := dropWhile_head_not (fun x => rowId x == rowId r) rs hdrop
        simpa using hb
      have hfalse : (C.loadNo == rowId x) = false := by
        rw [hCload]
        exact beq_eq_false_iff_ne.mpr (fun hh => hxne hh.symm)
      have hstep1 : rowStep (some C, acc) x = (some (newCur x), acc ++ [finalizeLoad C]) := by
        simp [rowStep, hxd, hfalse, hpush]
      have hstep2 : rowStep (none, acc ++ [finalizeLoad C]) x
          = (some (newCur x), acc ++ [finalizeLoad C]) := by
        simp [rowStep, hxd]
      have hseq : List.foldl rowStep (some C, acc) (x :: xs)
          = List.foldl rowStep (none, acc ++ [finalizeLoad C]) (x :: xs) := by
        rw [List.foldl_cons, List.foldl_cons, hstep1, hstep2]
      have hrest : ∀ y ∈ x :: xs, isDataRow y = true := by
        intro y hy
        refine h y (List.mem_cons_of_mem r ?_)
        exact (List.dropWhile_sublist _).mem (by rw [hdrop]; exact hy)
      have hrec := foldl_rowStep_chunks (x :: xs) hrest (acc ++ [finalizeLoad C])
      rw [hseq, hrec, List.map_cons, hbuild]
      simp
termination_by rows => rows.length
decreasing_by
  simp only [List.length_cons]
  have h1 : (rs.dropWhile (fun x => rowId x == rowId r)).length ≤ rs.length :=
    List.Sublist.length_le (List.dropWhile_sublist _)
  rw [hdrop] at h1
  simp only [List.length_cons] at h1
  omega

theorem foldl_rowStep_filter (rows : List (List String)) (s : Option CurLoad × List Load) :
    rows.foldl rowStep s = (rows.filter isDataRow).foldl rowStep s := by
  induction rows generalizing s with
  | nil => rfl
  | cons x xs ih =>
    by_cases hx : isDataRow x = true
    · rw [List.foldl_cons, List.filter_cons_of_pos hx, List.foldl_cons, ih]
    · have hskip : rowStep s x = s := by simp [rowStep, hx]
      rw [List.foldl_cons, hskip, List.filter_cons_of_neg (by simpa using hx), ih]

/-- The parser is exactly the chunk builder applied to the maximal adjacent
runs of equal load id among the data rows. -/
theorem parse_eq_chunks (csvText : String) :
    parseTransportCsv csvText = (chunkRows (dataRows csvText)).map buildChunk := by
  unfold parseTransportCsv dataRows
  rw [foldl_rowStep_filter]
  exact foldl_rowStep_chunks _ (fun r hr => (List.mem_filter.1 hr).2) []

theorem buildChunk_stops (p : List String × List (List String)) :
    (buildChunk p).stops = (p.1 :: p.2).map mkStop := by
  unfold buildChunk finalizeLoad
  simp [foldl_addRow_stops, newCur]

theorem buildChunk_loadNo (p : List String × List (List String)) :
    (buildChunk p).loadNo = rowId p.1 := by
  unfold buildChunk finalizeLoad
  simp [foldl_addRow_loadNo, newCur]

theorem buildChunk_returnLeg (p : List String × List (List String)) :
    (buildChunk p).totalReturnLeg = (mkStop (p.2.getLastD p.1)).returnLeg := by
  cases hp : p.2.getLast? with
  | none =>
    have hnil : p.2 = [] := by simpa using hp
    unfold buildChunk finalizeLoad
    rw [hnil]
    simp [newCur, List.getLastD]
  | some z =>
    unfold buildChunk finalizeLoad
    simp only
    rw [foldl_addRow_returnLeg _ _ z hp]
    rw [List.getLastD_eq_getLast?, hp]
    rfl

theorem chunkRows_chain : ∀ (rows : List (List String)),
    List.Chain' (fun p q => rowId p.1 ≠ rowId q.1) (chunkRows rows)
  | [] => by simp [chunkRows]
  | r :: rs => by
    rw [chunkRows]
    cases hdrop : rs.dropWhile (fun x => rowId x == rowId r) with
    | nil => simp [chunkRows]
    | cons x xs =>
      rw [chunkRows]
      rw [List.chain'_cons]
      constructor
      · have hb := dropWhile_head_not (fun x => rowId x == rowId r) rs hdrop
        simp only [beq_eq_false_iff_ne, ne_eq] at hb
        exact fun hh => hb hh.symm
      · have hrec := chunkRows_chain (x :: xs)
        rw [chunkRows] at hrec
        exact hrec
termination_by rows => rows.length
decreasing_by
  simp only [List.length_cons]
  have h1 : (rs.dropWhile (fun x => rowId x == rowId r)).length ≤ rs.length :=
    List.Sublist.length_le (List.dropWhile_sublist _)
  rw [hdrop] at h1
  simp only [List.length_cons] at h1
  omega

theorem chunkRows_flatten : ∀ (rows : List (List String)),
    (chunkRows rows).flatMap (fun p => p.1 :: p.2) = rows
  | [] => by simp [chunkRows]
  | r :: rs => by
    rw [chunkRows, List.flatMap_cons]
    rw [chunkRows_flatten (rs.dropWhile (fun x => rowId x == rowId r))]
    simp [List.takeWhile_append_dropWhile]
termination_by rows => rows.length
decreasing_by
  simp only [List.length_cons]
  exact Nat.lt_succ_of_le (List.Sublist.length_le (List.dropWhile_sublist _))

theorem chunkRows_run_ids : ∀ (rows : List (List String)),
    ∀ p ∈ chunkRows rows, ∀ x ∈ p.2, rowId x = rowId p.1
  | [] => by simp [chunkRows]
  | r :: rs => by
    rw [chunkRows]
    intro p hp
    rcases List.mem_cons.mp hp with hp1 | hp2
    · subst hp1
      intro x hx
      have hb := List.mem_takeWhile_imp hx
      simpa using hb
    · exact chunkRows_run_ids (rs.dropWhile (fun x => rowId x == rowId r)) p hp2
termination_by rows => rows.length
decreasing_by
  simp only [List.length_cons]
  exact Nat.lt_succ_of_le (List.Sublist.length_le (List.dropWhile_sublist _))

/-! ### Claim theorems about the parser -/

/-- Claim C1: for every input text, `parseTransportCsv` groups data rows
strictly by adjacency of the load-id field: the output is exactly one built
load per maximal run of adjacent data rows sharing one load id, whose stops
are one `StoreStop` per contributing row in row order and whose `loadNo` is
the run's id; the runs partition the data rows, rows of one run all share the
first row's id, and adjacent runs carry distinct ids, so a load id recurring
non-contiguously yields separate `Load` records. -/
theorem parse_groups_rows_by_adjacency (csvText : String) :
    parseTransportCsv csvText = (chunkRows (dataRows csvText)).map buildChunk ∧
    (parseTransportCsv csvText).map Load.stops
      = (chunkRows (dataRows csvText)).map (fun p => (p.1 :: p.2).map mkStop) ∧
    (parseTransportCsv csvText).map Load.loadNo
      = (chunkRows (dataRows csvText)).map (fun p => rowId p.1) ∧
    (chunkRows (dataRows csvText)).flatMap (fun p => p.1 :: p.2) = dataRows csvText ∧
    (∀ p ∈ chunkRows (dataRows csvText), ∀ x ∈ p.2, rowId x = rowId p.1) ∧
    List.Chain' (fun p q => rowId p.1 ≠ rowId q.1) (chunkRows (dataRows csvText)) := by
  refine ⟨parse_eq_chunks csvText, ?_, ?_, chunkRows_flatten _, chunkRows_run_ids _,
    chunkRows_chain _⟩
  · rw [parse_eq_chunks, List.map_map]
    exact List.map_congr_left (fun p _ => buildChunk_stops p)
  · rw [parse_eq_chunks, List.map_map]
    exact List.map_congr_left (fun p _ => buildChunk_loadNo p)

/-- Claim C3: for every non-negative distance and stop count,
`calculateExpectedTime` is `round(d + 30*n)`. -/
theorem calculateExpectedTime_round_formula (d : ℚ) (n : ℕ) (hd : 0 ≤ d) :
    calculateExpectedTime d (n : ℚ) = round (d + 30 * (n : ℚ)) := by
  unfold calculateExpectedTime
  ring_nf

/-- Witness for claim C3 at `d = 5/2`, `n = 1`. -/
theorem calculateExpectedTime_round_formula_check :
    0 ≤ (5 / 2 : ℚ) ∧
      calculateExpectedTime (5 / 2 : ℚ) ((1 : ℕ) : ℚ) = round ((5 / 2 : ℚ) + 30 * ((1 : ℕ) : ℚ)) :=
  ⟨by norm_num, calculateExpectedTime_round_formula (5 / 2) 1 (by norm_num)⟩

/-- Claim C4: each output load's `totalReturnLeg` is the return-leg value of
the last row of its block of rows. -/
theorem totalReturnLeg_last_row (csvText : String) :
    (parseTransportCsv csvText).map Load.totalReturnLeg
      = (chunkRows (dataRows csvText)).map (fun p => (mkStop (p.2.getLastD p.1)).returnLeg) := by
  rw [parse_eq_chunks, List.map_map]
  exact List.map_congr_left (fun p _ => buildChunk_returnLeg p)

/-- Claim C9: every load produced by the parser has at least one stop. -/
theorem parse_loads_stops_nonempty (csvText : String) (l : Load)
    (hl : l ∈ parseTransportCsv csvText) : 1 ≤ l.stops.length := by
  rw [parse_eq_chunks] at hl
  obtain ⟨p, hp, rfl⟩ := List.mem_map.mp hl
  rw [buildChunk_stops]
  simp

/-- Claim C10: consecutive loads in the parser output always carry distinct
`loadNo` values. -/
theorem parse_adjacent_loadNo_distinct (csvText : String) :
    List.Chain' (fun a b => a.loadNo ≠ b.loadNo) (parseTransportCsv csvText) := by
  rw [parse_eq_chunks, List.chain'_map]
  refine List.Chain'.imp ?_ (chunkRows_chain (dataRows csvText))
  intro p q hpq
  rw [buildChunk_loadNo, buildChunk_loadNo]
  exact hpq

/-! ### The two-row scenario of the specification (claim C2) -/

/-- The exact two-line input of the specification's parsing scenario. -/
def c2input : String :=
  "1,R1,1,S1,StoreA,,,,,0,10,5,2,D1,T1,TR1,8:00\n1,R1,2,S2,StoreB,,,,,0,15,3,3,D1,T1,TR1,8:00"

set_option maxRecDepth 8000 in
set_option maxHeartbeats 1000000 in
/-- Claim C2 counterexample: on the scenario input the parser does NOT
return a load with `totalPallets = 5`, `totalDistance = 25` and
`expectedTimeMinutes = 88`; under the column layout of the code (pallets in
column 10, distance in column 11, return leg in column 12) the two rows carry
pallets 10 and 15, distances 5 and 3, and return legs 2 and 3. -/
theorem parse_scenario_cex :
    ¬ ((parseTransportCsv c2input).map
        (fun l => (l.loadNo, l.stops.length, l.totalPallets, l.totalDistance,
          l.totalReturnLeg, l.expectedTimeMinutes))
        = [("1", 2, 5, 25, 3, 88)]) := by
  simp [c2input, parseTransportCsv, parseLine, jsSplit, splitOnChar, jsTrim, trimChars,
    jsIsWS, isDataRow, rowId, jsNumberNotNaN, radixVal, decLitVal, digitsToNat, isHexDigitChar,
    hexDigitVal, hexToNat, jsNumber, jsParseInt, jsParseIntCore, jsParseFloat, jsOrZeroQ,
    jsOrZeroInt, jsOrElse, mkStop, newCur, addRow, finalizeLoad, pushCurrent, rowStep,
    calculateExpectedTime]

set_option maxRecDepth 8000 in
set_option maxHeartbeats 1000000 in
/-- Claim C2 as amended: on the scenario input the parser returns exactly one
load with `loadNo = "1"`, 2 stops, `totalPallets = 25` (10 + 15),
`totalDistance = 8` (5 + 3), `totalReturnLeg = 3` (last row wins), and
`expectedTimeMinutes = round(8 + 3 + 2*30) = 71`. -/
theorem parse_scenario_actual :
    (parseTransportCsv c2input).map
      (fun l => (l.loadNo, l.stops.length, l.totalPallets, l.totalDistance,
        l.totalReturnLeg, l.expectedTimeMinutes))
      = [("1", 2, 25, 8, 3, 71)] := by
  simp [c2input, parseTransportCsv, parseLine, jsSplit, splitOnChar, jsTrim, trimChars,
    jsIsWS, isDataRow, rowId, jsNumberNotNaN, radixVal, decLitVal, digitsToNat, isHexDigitChar,
    hexDigitVal, hexToNat, jsNumber, jsParseInt, jsParseIntCore, jsParseFloat, jsOrZeroQ,
    jsOrZeroInt, jsOrElse, mkStop, newCur, addRow, finalizeLoad, pushCurrent, rowStep,
    calculateExpectedTime]
  norm_num [round_eq]

/-- The one load parsed from the single short row `"7,R7,1,S7,Store7"`: every
column past the store name is missing, so the numeric fields default to 0,
the driver defaults to `"UNKNOWN"`, and the expected time is one 30-minute
stop. -/
def demo9Load : Load :=
  { loadNo := "7"
    routeNo := "R7"
    driver := "UNKNOWN"
    truck := ""
    trailer := ""
    despatchTime := ""
    date := ""
    stops := [{ stopNo := 1, storeNo := "S7", storeName := "Store7", distance := 0,
                returnLeg := 0, windowStart := "", windowEnd := "" }]
    totalPallets := 0
    totalDistance := 0
    totalReturnLeg := 0
    expectedTimeMinutes := 30 }

set_option maxRecDepth 8000 in
set_option maxHeartbeats 1000000 in
/-- Evaluation of the parser on the single short row. -/
theorem demo9_parse : parseTransportCsv "7,R7,1,S7,Store7" = [demo9Load] := by
  simp [demo9Load, parseTransportCsv, parseLine, jsSplit, splitOnChar, jsTrim, trimChars,
    jsIsWS, isDataRow, rowId, jsNumberNotNaN, radixVal, decLitVal, digitsToNat, isHexDigitChar,
    hexDigitVal, hexToNat, jsNumber, jsParseInt, jsParseIntCore, jsParseFloat, jsOrZeroQ,
    jsOrZeroInt, jsOrElse, mkStop, newCur, addRow, finalizeLoad, pushCurrent, rowStep,
    calculateExpectedTime]

/-- Witness for claim C9 on the single-row input. -/
theorem parse_loads_stops_nonempty_check : 1 ≤ demo9Load.stops.length :=
  parse_loads_stops_nonempty "7,R7,1,S7,Store7" demo9Load (by simp [demo9_parse])

/-! ### Claims about the time arithmetic -/

/-- Claim C5: for non-empty clock strings whose hour and minute pieces both
convert to numbers, `calculateMinutesBetween` is the absolute difference of
the minute-of-day values `h*60 + m`, with no day-wraparound adjustment; in
particular `"23:50"` and `"00:10"` give 1420, not 20, and an empty argument
on either side gives 0. -/
theorem minutesBetween_abs_diff :
    (∀ (a b : String) (h1 m1 h2 m2 : ℚ), a ≠ "" → b ≠ "" →
      ((jsSplit ':' a).map jsNumber).getD 0 none = some h1 →
      ((jsSplit ':' a).map jsNumber).getD 1 none = some m1 →
      ((jsSplit ':' b).map jsNumber).getD 0 none = some h2 →
      ((jsSplit ':' b).map jsNumber).getD 1 none = some m2 →
      calculateMinutesBetween a b = some |(h2 * 60 + m2) - (h1 * 60 + m1)|) ∧
    calculateMinutesBetween "23:50" "00:10" = some 1420 ∧
    calculateMinutesBetween "23:50" "00:10" ≠ some 20 ∧
    (∀ b : String, calculateMinutesBetween "" b = some 0 ∧
      calculateMinutesBetween b "" = some 0) := by
  refine ⟨?_, ?_, ?_, ?_⟩
  · intro a b h1 m1 h2 m2 ha hb hh1 hm1 hh2 hm2
    unfold calculateMinutesBetween
    rw [if_neg (by simp [ha, hb])]
    simp only [hh1, hm1, hh2, hm2, jsOrZeroQ, Option.getD_some]
  · simp [calculateMinutesBetween, jsSplit, splitOnChar, jsNumber, trimChars, jsIsWS,
      radixVal, decLitVal, digitsToNat, jsOrZeroQ]
    norm_num
  · simp [calculateMinutesBetween, jsSplit, splitOnChar, jsNumber, trimChars, jsIsWS,
      radixVal, decLitVal, digitsToNat, jsOrZeroQ]
    norm_num
  · intro b
    constructor
    · simp [calculateMinutesBetween]
    · simp [calculateMinutesBetween]

/-- Witness for claim C5 at the wraparound pair: the hour and minute pieces
of `"23:50"` and `"00:10"` convert to 23, 50, 0 and 10, and the theorem
instantiates to the absolute minute-of-day difference. -/
theorem minutesBetween_abs_diff_check :
    calculateMinutesBetween "23:50" "00:10"
      = some |((0 : ℚ) * 60 + 10) - ((23 : ℚ) * 60 + 50)| :=
  minutesBetween_abs_diff.1 "23:50" "00:10" 23 50 0 10 (by decide) (by decide)
    (by simp [jsSplit, splitOnChar, jsNumber, trimChars, jsIsWS, radixVal, decLitVal,
      digitsToNat])
    (by simp [jsSplit, splitOnChar, jsNumber, trimChars, jsIsWS, radixVal, decLitVal,
      digitsToNat])
    (by simp [jsSplit, splitOnChar, jsNumber, trimChars, jsIsWS, radixVal, decLitVal,
      digitsToNat])
    (by simp [jsSplit, splitOnChar, jsNumber, trimChars, jsIsWS, radixVal, decLitVal,
      digitsToNat])

/-- Claim C6 counterexample: at the non-empty pair `("x", "1:00")` the
function does not return a well-defined non-negative integer — the hour piece
`"x"` converts to `NaN` under `Number`, and the `NaN` propagates to the
result (`none` in this model), so no rational value, let alone a non-negative
integer, is returned. -/
theorem minutesBetween_total_cex :
    ¬ ∃ q : ℚ, calculateMinutesBetween "x" "1:00" = some q ∧ 0 ≤ q ∧ ∃ z : ℤ, (z : ℚ) = q := by
  have h : calculateMinutesBetween "x" "1:00" = none := by
    simp [calculateMinutesBetween, jsSplit, splitOnChar, jsNumber, trimChars, jsIsWS,
      radixVal, decLitVal, digitsToNat]
  simp [h]

/-- Claim C6 as amended: `calculateMinutesBetween` never raises; every
numeric result is non-negative, and whenever both hour pieces convert to
numbers the result is defined, with a missing or unparsable minute component
treated as 0 (`jsOrZeroQ`).  When an hour piece does not convert, the result
is `NaN` (`none`) rather than a number, and a fractional piece yields a
fractional (non-integer) result, so the result is not an integer in general. -/
theorem minutesBetween_total_amended (a b : String) :
    (∀ q : ℚ, calculateMinutesBetween a b = some q → 0 ≤ q) ∧
    (∀ h1 h2 : ℚ, a ≠ "" → b ≠ "" →
      ((jsSplit ':' a).map jsNumber).getD 0 none = some h1 →
      ((jsSplit ':' b).map jsNumber).getD 0 none = some h2 →
      calculateMinutesBetween a b =
        some |(h2 * 60 + jsOrZeroQ (((jsSplit ':' b).map jsNumber).getD 1 none)) -
              (h1 * 60 + jsOrZeroQ (((jsSplit ':' a).map jsNumber).getD 1 none))|) := by
  constructor
  · intro q hq
    unfold calculateMinutesBetween at hq
    by_cases hab : (a == "" || b == "") = true
    · rw [if_pos hab] at hq
      cases hq
      norm_num
    · rw [if_neg hab] at hq
      cases hga : ((jsSplit ':' a).map jsNumber).getD 0 none with
      | none =>
        rw [hga] at hq
        cases hgb : ((jsSplit ':' b).map jsNumber).getD 0 none with
        | none => rw [hgb] at hq; cases hq
        | some h2 => rw [hgb] at hq; cases hq
      | some h1 =>
        rw [hga] at hq
        cases hgb : ((jsSplit ':' b).map jsNumber).getD 0 none with
        | none => rw [hgb] at hq; cases hq
        | some h2 =>
          rw [hgb] at hq
          cases hq
          exact abs_nonneg _
  · intro h1 h2 ha hb hh1 hh2
    unfold calculateMinutesBetween
    rw [if_neg (by simp [ha, hb])]
    simp only [hh1, hh2]

/-- Witness for claim C6 as amended, on a pair whose first minute piece is
the unparsable `"xx"` (treated as 0): the gap between `"7:xx"` and `"8:30"`
is 90 minutes. -/
theorem minutesBetween_total_amended_check :
    calculateMinutesBetween "7:xx" "8:30" = some 90 :=
  ((minutesBetween_total_amended "7:xx" "8:30").2 7 8 (by decide) (by decide)
    (by simp [jsSplit, splitOnChar, jsNumber, trimChars, jsIsWS, radixVal, decLitVal,
      digitsToNat])
    (by simp [jsSplit, splitOnChar, jsNumber, trimChars, jsIsWS, radixVal, decLitVal,
      digitsToNat])).trans
    (by simp [jsSplit, splitOnChar, jsNumber, trimChars, jsIsWS, radixVal, decLitVal,
      digitsToNat, jsOrZeroQ]
        norm_num)

/-! ### Shared lemmas about the driver aggregation -/

/-- The dispatch gaps between adjacent loads of a list, one
`calculateMinutesBetween` per adjacent pair. -/
def gapList (l : List Load) : List (Option ℚ) :=
  (l.zip l.tail).map (fun p => calculateMinutesBetween p.1.despatchTime p.2.despatchTime)

/-- Sum of possibly-`NaN` values, `NaN` absorbing. -/
def jsSum (xs : List (Option ℚ)) : Option ℚ := xs.foldl jsAdd (some 0)

theorem range_map_gap (l : List Load) :
    (List.range (l.length - 1)).map (fun i => calculateMinutesBetween
        (l.getD i dummyLoad).despatchTime (l.getD (i + 1) dummyLoad).despatchTime)
      = gapList l := by
  apply List.ext_getElem
  · simp only [List.length_map, List.length_range, gapList, List.length_zip, List.length_tail]
    omega
  · intro n h1 h2
    simp only [List.length_map, List.length_range] at h1
    simp only [List.getElem_map, List.getElem_range, gapList, List.getElem_zip,
      List.getElem_tail]
    rw [List.getD_eq_getElem l dummyLoad (by omega), List.getD_eq_getElem l dummyLoad (by omega)]

theorem totalGap_eq_jsSum (l : List Load) :
    (List.range (l.length - 1)).foldl (fun acc i => jsAdd acc (calculateMinutesBetween
        (l.getD i dummyLoad).despatchTime (l.getD (i + 1) dummyLoad).despatchTime)) (some 0)
      = jsSum (gapList l) := by
  rw [jsSum, ← range_map_gap, List.foldl_map]

theorem finalizeStats_driverName (s : DriverChartData) :
    (finalizeStats s).driverName = s.driverName := rfl

theorem finalizeStats_loads (s : DriverChartData) :
    (finalizeStats s).loads = List.insertionSort despLE s.loads := rfl

theorem finalizeStats_avg (s : DriverChartData) :
    (finalizeStats s).avgTimeBetweenLoadsMinutes =
      if (List.insertionSort despLE s.loads).length ≤ 1 then some 0
      else (jsSum (gapList (List.insertionSort despLE s.loads))).map
        (fun g => round (g / ((((List.insertionSort despLE s.loads).length - 1 : ℕ)) : ℚ))) := by
  show (if 0 < (List.insertionSort despLE s.loads).length - 1 then _ else some 0) = _
  rw [totalGap_eq_jsSum]
  by_cases hlen : (List.insertionSort despLE s.loads).length ≤ 1
  · rw [if_neg (by omega), if_pos hlen]
  · rw [if_pos (by omega), if_neg hlen]

theorem pushLoadStats_driverName (s : DriverChartData) (load : Load) :
    (pushLoadStats s load).driverName = s.driverName := rfl

theorem pushLoadStats_loads (s : DriverChartData) (load : Load) :
    (pushLoadStats s load).loads = s.loads ++ [load] := rfl

theorem addLoadToMap_step (m : List (String × DriverChartData)) (done : List Load) (load : Load)
    (h1 : ∀ p ∈ m, p.1 = p.2.driverName ∧ p.2.loads = done.filter (fun l => l.driver == p.1))
    (h2 : ∀ l ∈ done, ∃ p ∈ m, p.1 = l.driver) :
    (∀ p ∈ addLoadToMap m load, p.1 = p.2.driverName ∧
      p.2.loads = (done ++ [load]).filter (fun l => l.driver == p.1)) ∧
    (∀ l ∈ done ++ [load], ∃ p ∈ addLoadToMap m load, p.1 = l.driver) := by
  unfold addLoadToMap
  by_cases hany : m.any (fun p => p.1 == load.driver) = true
  · rw [if_pos hany]
    constructor
    · intro p hp
      obtain ⟨p0, hp0, rfl⟩ := List.mem_map.mp hp
      by_cases hkey : (p0.1 == load.driver) = true
      · rw [if_pos hkey]
        have hk : p0.1 = load.driver := by simpa using hkey
        refine ⟨by rw [pushLoadStats_driverName]; exact (h1 p0 hp0).1, ?_⟩
        rw [pushLoadStats_loads, (h1 p0 hp0).2, List.filter_append]
        simp [hk.symm]
      · rw [if_neg hkey]
        refine ⟨(h1 p0 hp0).1, ?_⟩
        rw [(h1 p0 hp0).2, List.filter_append]
        have hk : ¬ (load.driver == p0.1) = true := by
          simp only [beq_iff_eq] at hkey ⊢
          exact fun hh => hkey hh.symm
        simp [hk]
    · intro l hl
      rcases List.mem_append.mp hl with hdone | hload
      · obtain ⟨p, hp, hpk⟩ := h2 l hdone
        refine ⟨if (p.1 == load.driver) = true then (p.1, pushLoadStats p.2 load) else p,
          List.mem_map_of_mem _ hp, ?_⟩
        by_cases hk : (p.1 == load.driver) = true
        · rw [if_pos hk]; exact hpk
        · rw [if_neg hk]; exact hpk
      · have hleq : l = load := by simpa using hload
        obtain ⟨p, hp, hpk⟩ := List.any_eq_true.mp hany
        refine ⟨(p.1, pushLoadStats p.2 load), ?_, ?_⟩
        · refine List.mem_map.mpr ⟨p, hp, ?_⟩
          rw [if_pos hpk]
        · rw [hleq]
          simpa using hpk
  · rw [if_neg hany]
    have hanyf : ∀ p ∈ m, ¬ (p.1 == load.driver) = true := by
      rw [Bool.not_eq_true] at hany
      exact List.any_eq_false.mp hany
    have hnew : ∀ l ∈ done, ¬ (l.driver == load.driver) = true := by
      intro l hl hcontra
      obtain ⟨p, hp, hpk⟩ := h2 l hl
      exact hanyf p hp (by rw [hpk]; exact hcontra)
    constructor
    · intro p hp
      obtain ⟨p0, hp0, rfl⟩ := List.mem_map.mp hp
      rcases List.mem_append.mp hp0 with hold | hnewp
      · have hk : ¬ (p0.1 == load.driver) = true := hanyf p0 hold
        rw [if_neg hk]
        refine ⟨(h1 p0 hold).1, ?_⟩
        rw [(h1 p0 hold).2, List.filter_append]
        have hk2 : ¬ (load.driver == p0.1) = true := by
          simp only [beq_iff_eq] at hk ⊢
          exact fun hh => hk hh.symm
        simp [hk2]
      · have hp0eq : p0 = (load.driver, emptyStats load.driver) := by simpa using hnewp
        subst hp0eq
        rw [if_pos (by simp)]
        refine ⟨rfl, ?_⟩
        rw [pushLoadStats_loads, List.filter_append]
        have hdone0 : done.filter (fun l => l.driver == load.driver) = [] :=
          List.filter_eq_nil_iff.mpr hnew
        simp [emptyStats, hdone0]
    · intro l hl
      rcases List.mem_append.mp hl with hdone | hload
      · obtain ⟨p, hp, hpk⟩ := h2 l hdone
        refine ⟨if (p.1 == load.driver) = true then (p.1, pushLoadStats p.2 load) else p,
          List.mem_map_of_mem _ (List.mem_append_left _ hp), ?_⟩
        by_cases hk : (p.1 == load.driver) = true
        · rw [if_pos hk]; exact hpk
        · rw [if_neg hk]; exact hpk
      · have hleq : l = load := by simpa using hload
        refine ⟨(load.driver, pushLoadStats (emptyStats load.driver) load), ?_, by rw [hleq]⟩
        refine List.mem_map.mpr ⟨(load.driver, emptyStats load.driver), ?_, ?_⟩
        · exact List.mem_append_right _ (List.mem_singleton_self _)
        · rw [if_pos (by simp)]

theorem foldl_addLoadToMap_inv (todo : List Load) :
    ∀ (done : List Load) (m : List (String × DriverChartData)),
    (∀ p ∈ m, p.1 = p.2.driverName ∧ p.2.loads = done.filter (fun l => l.driver == p.1)) →
    (∀ l ∈ done, ∃ p ∈ m, p.1 = l.driver) →
    ∀ p ∈ todo.foldl addLoadToMap m,
      p.1 = p.2.driverName ∧ p.2.loads = (done ++ todo).filter (fun l => l.driver == p.1) := by
  induction todo with
  | nil => intro done m h1 h2 p hp; simpa using h1 p hp
  | cons load rest ih =>
    intro done m h1 h2 p hp
    rw [List.foldl_cons] at hp
    obtain ⟨s1, s2⟩ := addLoadToMap_step m done load h1 h2
    have hres := ih (done ++ [load]) (addLoadToMap m load) s1 s2 p hp
    refine ⟨hres.1, ?_⟩
    rw [hres.2, List.append_assoc]
    rfl

/-- Every record in the `driverStats` output is the finalization of the
first-appearance-ordered group of exactly that driver's loads. -/
theorem driverStats_entry (loads : List Load) (stat : DriverChartData)
    (h : stat ∈ driverStats loads) :
    ∃ s : DriverChartData, stat = finalizeStats s ∧ s.driverName = stat.driverName ∧
      s.loads = loads.filter (fun l => l.driver == stat.driverName) := by
  unfold driverStats at h
  rw [List.mem_insertionSort] at h
  obtain ⟨p, hp, rfl⟩ := List.mem_map.mp h
  have hinv := foldl_addLoadToMap_inv loads [] [] (by simp) (by simp) p (by simpa using hp)
  refine ⟨p.2, rfl, by rw [finalizeStats_driverName], ?_⟩
  rw [finalizeStats_driverName, ← hinv.1]
  simpa using hinv.2

theorem despLE_of_keys {a b : Load} {x y : ℚ} (ha : despKey a = some x)
    (hb : despKey b = some y) : despLE a b ↔ x ≤ y := by
  unfold despLE despLEb
  rw [ha, hb]
  simp

theorem despLE_trans_keys {a b c : Load} {x y z : ℚ} (ha : despKey a = some x)
    (hb : despKey b = some y) (hc : despKey c = some z) :
    despLE a b → despLE b c → despLE a c := by
  rw [despLE_of_keys ha hb, despLE_of_keys hb hc, despLE_of_keys ha hc]
  exact le_trans

theorem despLE_total_keys {a b : Load} {x y : ℚ} (ha : despKey a = some x)
    (hb : despKey b = some y) (h : ¬ despLE a b) : despLE b a := by
  rw [despLE_of_keys ha hb] at h
  rw [despLE_of_keys hb ha]
  exact le_of_not_le h

theorem orderedInsert_pairwise_keys (a : Load) (l : List Load)
    (ha : (despKey a).isSome) (hl : ∀ x ∈ l, (despKey x).isSome)
    (hs : l.Pairwise despLE) : (List.orderedInsert despLE a l).Pairwise despLE := by
  induction l with
  | nil => simp [List.orderedInsert]
  | cons b t ih =>
    rw [List.orderedInsert]
    obtain ⟨ka, hka⟩ := Option.isSome_iff_exists.mp ha
    obtain ⟨kb, hkb⟩ := Option.isSome_iff_exists.mp (hl b (List.mem_cons_self b t))
    by_cases hab : despLE a b
    · rw [if_pos hab]
      refine List.Pairwise.cons ?_ hs
      intro x hx
      rcases List.mem_cons.mp hx with rfl | hxt
      · exact hab
      · obtain ⟨kx, hkx⟩ := Option.isSome_iff_exists.mp (hl x (List.mem_cons_of_mem b hxt))
        exact despLE_trans_keys hka hkb hkx hab ((List.pairwise_cons.mp hs).1 x hxt)
    · rw [if_neg hab]
      refine List.Pairwise.cons ?_
        (ih (fun x hx => hl x (List.mem_cons_of_mem b hx)) (List.pairwise_cons.mp hs).2)
      intro x hx
      rcases (List.mem_orderedInsert despLE).mp hx with rfl | hxt
      · exact despLE_total_keys hka hkb hab
      · exact (List.pairwise_cons.mp hs).1 x hxt

theorem insertionSort_pairwise_keys (l : List Load)
    (hl : ∀ x ∈ l, (despKey x).isSome) :
    (List.insertionSort despLE l).Pairwise despLE := by
  induction l with
  | nil => simp
  | cons a t ih =>
    rw [List.insertionSort]
    refine orderedInsert_pairwise_keys a _ (hl a (List.mem_cons_self a t)) ?_ ?_
    · intro x hx
      exact hl x (List.mem_cons_of_mem a ((List.mem_insertionSort despLE).mp hx))
    · exact ih (fun x hx => hl x (List.mem_cons_of_mem a hx))

/-! ### Claim theorems about the driver aggregation -/

/-- Two loads for two different drivers, with total kilometres 50 and 100;
the 50-kilometre driver comes first in the input. -/
def demoKmsLoads : List Load :=
  [{ dummyLoad with loadNo := "1", driver := "DB", totalDistance := 50 },
   { dummyLoad with loadNo := "2", driver := "DA", totalDistance := 100 }]

/-- Claim C7: the driver aggregation always returns the records sorted
descending by `totalKms` (every adjacent pair — in fact every pair — is in
non-increasing `totalKms` order), and on two drivers with 100 and 50 total
kilometres, the 100-kilometre driver is first even when the input lists the
50-kilometre driver first. -/
theorem driverStats_sorted_desc_kms :
    (∀ loads : List Load, List.Sorted kmsGE (driverStats loads)) ∧
    (driverStats demoKmsLoads).map DriverChartData.driverName = ["DA", "DB"] := by
  constructor
  · intro loads
    unfold driverStats
    exact List.sorted_insertionSort kmsGE _
  · simp [demoKmsLoads, driverStats, addLoadToMap, emptyStats, pushLoadStats, finalizeStats,
      List.insertionSort, List.orderedInsert, kmsGE, despLE, despLEb, despKey, jsSplit,
      splitOnChar, jsNumber, trimChars, jsIsWS, radixVal, decLitVal, digitsToNat, jsAdd,
      dummyLoad, calculateMinutesBetween, jsOrZeroQ]
    norm_num

/-- Claim C8: every record of the driver aggregation holds exactly that
driver's loads sorted by dispatch-time minute of day, and its
`avgTimeBetweenLoadsMinutes` is the rounded mean of `calculateMinutesBetween`
over the adjacent pairs of that sorted list — the gap sum divided by
count − 1 — and `some 0` whenever the driver has one load or none; whenever
every dispatch key parses, the stored list is pairwise in ascending
minute-of-day order. -/
theorem driverStats_avg_gap_formula (loads : List Load) (stat : DriverChartData)
    (h : stat ∈ driverStats loads) :
    stat.loads = List.insertionSort despLE
      (loads.filter (fun l => l.driver == stat.driverName)) ∧
    stat.avgTimeBetweenLoadsMinutes =
      (if stat.loads.length ≤ 1 then some 0
       else (jsSum (gapList stat.loads)).map
         (fun g => round (g / ((stat.loads.length - 1 : ℕ) : ℚ)))) ∧
    (stat.loads.length ≤ 1 → stat.avgTimeBetweenLoadsMinutes = some 0) ∧
    ((∀ l ∈ stat.loads, (despKey l).isSome) → stat.loads.Pairwise despLE) := by
  obtain ⟨s, hstat, hname, hloads⟩ := driverStats_entry loads stat h
  subst hstat
  refine ⟨?_, ?_, ?_, ?_⟩
  · rw [finalizeStats_loads, hloads]
  · rw [finalizeStats_avg, finalizeStats_loads]
  · intro hle
    rw [finalizeStats_loads] at hle
    rw [finalizeStats_avg, if_pos hle]
  · intro hkeys
    rw [finalizeStats_loads] at hkeys ⊢
    apply insertionSort_pairwise_keys
    intro x hx
    exact hkeys x ((List.mem_insertionSort despLE).mpr hx)

/-- Two loads of one driver, dispatched at 10:00 and 8:00 (out of order in
the input). -/
def demoGapLoads : List Load :=
  [{ dummyLoad with loadNo := "1", driver := "DG", despatchTime := "10:00" },
   { dummyLoad with loadNo := "2", driver := "DG", despatchTime := "8:00" }]

/-- The single record the aggregation produces for `demoGapLoads`: the loads
sorted by dispatch time and a 120-minute average gap. -/
def demoGapStat : DriverChartData :=
  { driverName := "DG"
    loads := [{ dummyLoad with loadNo := "2", driver := "DG", despatchTime := "8:00" },
              { dummyLoad with loadNo := "1", driver := "DG", despatchTime := "10:00" }]
    totalKms := 0
    totalPallets := 0
    avgTimeBetweenLoadsMinutes := some 120
    avgExpectedTime := 0 }

/-- Restatement of `finalizeStats` with the gap total written over the
adjacent pairs of the sorted list instead of the index loop. -/
theorem finalizeStats_eq (s : DriverChartData) :
    finalizeStats s =
      { s with
        loads := List.insertionSort despLE s.loads
        avgTimeBetweenLoadsMinutes :=
          if (List.insertionSort despLE s.loads).length ≤ 1 then some 0
          else (jsSum (gapList (List.insertionSort despLE s.loads))).map
            (fun g => round (g / ((((List.insertionSort despLE s.loads).length - 1 : ℕ)) : ℚ)))
        avgExpectedTime :=
          if 0 < (List.insertionSort despLE s.loads).length then
            ((((List.insertionSort despLE s.loads).foldl
                (fun acc l => acc + l.expectedTimeMinutes) (0 : ℤ)) : ℤ) : ℚ)
              / (((List.insertionSort despLE s.loads).length : ℕ) : ℚ)
          else 0 } := by
  simp only [finalizeStats]
  rw [totalGap_eq_jsSum]
  by_cases hlen : (List.insertionSort despLE s.loads).length ≤ 1
  · rw [if_neg (show ¬ 0 < (List.insertionSort despLE s.loads).length - 1 by omega),
      if_pos hlen]
  · rw [if_pos (show 0 < (List.insertionSort despLE s.loads).length - 1 by omega),
      if_neg hlen]

set_option maxRecDepth 8000 in
set_option maxHeartbeats 1000000 in
/-- Evaluation of the aggregation on the one-driver demo. -/
theorem demoGap_eval : driverStats demoGapLoads = [demoGapStat] := by
  simp [demoGapLoads, demoGapStat, driverStats, addLoadToMap, emptyStats, pushLoadStats,
    finalizeStats_eq, List.insertionSort, List.orderedInsert, kmsGE, despLE, despLEb, despKey,
    jsSplit, splitOnChar, jsNumber, trimChars, jsIsWS, radixVal, decLitVal, digitsToNat, jsAdd,
    dummyLoad, calculateMinutesBetween, jsOrZeroQ, gapList, jsSum]
  norm_num [round_eq, splitOnChar, jsNumber, trimChars, jsIsWS, radixVal, decLitVal,
    digitsToNat, jsAdd, jsOrZeroQ]
  simp [jsNumber, trimChars, jsIsWS, radixVal, decLitVal, digitsToNat, jsAdd, jsOrZeroQ]
  norm_num [round_eq]

/-- Witness for claim C8 on the one-driver demo. -/
theorem driverStats_avg_gap_formula_check :
    demoGapStat.loads = List.insertionSort despLE
      (demoGapLoads.filter (fun l => l.driver == demoGapStat.driverName)) ∧
    demoGapStat.avgTimeBetweenLoadsMinutes =
      (if demoGapStat.loads.length ≤ 1 then some 0
       else (jsSum (gapList demoGapStat.loads)).map
         (fun g => round (g / ((demoGapStat.loads.length - 1 : ℕ) : ℚ)))) ∧
    (demoGapStat.loads.length ≤ 1 → demoGapStat.avgTimeBetweenLoadsMinutes = some 0) ∧
    ((∀ l ∈ demoGapStat.loads, (despKey l).isSome) → demoGapStat.loads.Pairwise despLE) :=
  driverStats_avg_gap_formula demoGapLoads demoGapStat (by simp [demoGap_eval])
